import Mathlib

/-!
Verification of the masonry compose pass (src/masonry/src/passes/compose.rs).

The pass walks a widget tree top-down, recomputing each widget state
absolute position (window_origin) from the accumulated ancestor
translations, skipping clean unmoved subtrees, invoking per-widget compose
callbacks, emitting input-method (IME) relocation signals, updating dirty
flags, and merging child state back into the parent.

Shallow embedding choices:
- 2D vectors (vello kurbo Vec2 and Point, which interconvert by
  to_vec2 and to_point) are modelled as pairs of integers; the pass only
  adds them.
- The widget tree (tree arena plus the recurse_on_children driver) is
  modelled as a rose tree over a mutually inductive list type, so that the
  recursion is structural and all definitions compute.
- The global RenderRootState is modelled with the fields the pass touches:
  the focus oracle behind is_focused, the outgoing signal queue behind
  emit_signal, and the needs_pointer_pass flag.  An extra composeCalls
  field records the identity of each widget whose compose callback the
  pass invokes; it stands for the externally observable callback
  invocations.
- The Widget trait compose callback is external to this crate slice and is
  out of scope per the spec; it is modelled as state-preserving (its
  invocation is recorded in composeCalls).
-/

namespace ComposePass

/-- Model of kurbo Vec2 and Point: a pair of integer coordinates. -/
abbrev Vec2 : Type := Int × Int

/-- Model of Vec2::ZERO. -/
def Vec2.ZERO : Vec2 := (0, 0)

/-- Model of the WidgetState fields read or written by the compose pass. -/
structure WidgetState where
  id : Nat
  origin : Vec2
  translation : Vec2
  window_origin : Vec2
  translation_changed : Bool
  needs_compose : Bool
  request_compose : Bool
  accepts_text_input : Bool
  needs_accessibility : Bool
  request_accessibility : Bool
  needs_paint : Bool

/-- Modelled from the spec: WidgetState::get_ime_area is defined outside
src/ ; the spec only says the pass computes the current input-method
anchor area of the node, so the anchor area is modelled as the current
absolute position of the widget. -/
def WidgetState.get_ime_area (s : WidgetState) : Vec2 :=
  s.window_origin

/-- Modelled from the spec: WidgetState::merge_up is defined outside src/.
Spec 4.1 step 9 and 9 describe it as folding the child post-visit state
into the parent aggregate, "propagating some-descendant-still-needs-an-
accessibility/paint-update bits upward"; it ORs the needs bits of the
child into the parent and leaves every other parent field alone. -/
def WidgetState.merge_up (parent child : WidgetState) : WidgetState :=
  { parent with
    needs_compose := parent.needs_compose || child.needs_compose
    needs_accessibility := parent.needs_accessibility || child.needs_accessibility
    needs_paint := parent.needs_paint || child.needs_paint }

/-- Model of RenderRootSignal restricted to the one variant the compose
pass emits. -/
inductive RenderRootSignal : Type where
  | ImeMoved (area : Vec2)

/-- Model of RenderRootSignal::new_ime_moved_signal. -/
def RenderRootSignal.new_ime_moved_signal (area : Vec2) : RenderRootSignal :=
  RenderRootSignal.ImeMoved area

/-- Model of the RenderRootState fields the compose pass touches, plus the
composeCalls instrumentation recording which widget compose callbacks ran. -/
structure RenderRootState where
  focused : Option Nat
  signals : List RenderRootSignal
  needs_pointer_pass : Bool
  composeCalls : List Nat

/-- Modelled from the spec: RenderRootState::is_focused is defined outside
src/ ; Global Pass State "exposes is_focused(node_id) -> bool", modelled
as a lookup against the focused widget id. -/
def RenderRootState.is_focused (g : RenderRootState) (id : Nat) : Bool :=
  g.focused == some id

/-- Modelled from the spec: RenderRootState::emit_signal is defined
outside src/ ; the signal queue is append-only during the pass. -/
def RenderRootState.emit_signal (g : RenderRootState) (sig : RenderRootSignal) :
    RenderRootState :=
  { g with signals := g.signals ++ [sig] }

/-- Instrumentation for the Widget::compose callback invocation
(widget.item.compose in the source): the callback itself is out of scope
and modelled as state-preserving, so invoking it just records the widget
id. -/
def RenderRootState.record_compose (g : RenderRootState) (id : Nat) :
    RenderRootState :=
  { g with composeCalls := g.composeCalls ++ [id] }

mutual
/-- A widget tree node: the WidgetState of the node and its children, in
order.  Models one slot of the tree arena together with its subtree. -/
inductive Tree : Type where
  | node (state : WidgetState) (children : TreeList)

/-- A list of widget subtrees (the children of one node, in order). -/
inductive TreeList : Type where
  | nil
  | cons (t : Tree) (ts : TreeList)
end

/-- The WidgetState stored at the root of a subtree. -/
def Tree.state : Tree → WidgetState
  | .node s _ => s

/-- The children of the root of a subtree. -/
def Tree.children : Tree → TreeList
  | .node _ cs => cs

/-- Indexing into a child list. -/
def TreeList.get? : TreeList → Nat → Option Tree
  | .nil, _ => none
  | .cons t _, 0 => some t
  | .cons _ ts, n + 1 => ts.get? n

/-- Number of children in a child list. -/
def TreeList.length : TreeList → Nat
  | .nil => 0
  | .cons _ ts => ts.length + 1

mutual
/-- Model of compose_widget (src/masonry/src/passes/compose.rs lines
13 to 75).  Takes the global state, the subtree rooted at the widget, the
parent_moved flag and the parent_translation vector; returns the updated
global state and subtree.  The tracing span is instrumentation and is not
modelled. -/
def compose_widget (g : RenderRootState) (t : Tree) (parent_moved : Bool)
    (parent_translation : Vec2) : RenderRootState × Tree :=
  match t with
  | .node s cs =>
    let moved := parent_moved || s.translation_changed
    let translation := parent_translation + s.translation + s.origin
    let s := { s with window_origin := translation }
    if !parent_moved && !s.translation_changed && !s.needs_compose then
      (g, .node s cs)
    else
      let g := if s.request_compose then g.record_compose s.id else g
      let g :=
        if moved && s.accepts_text_input && g.is_focused s.id then
          g.emit_signal (RenderRootSignal.new_ime_moved_signal s.get_ime_area)
        else g
      let s := { s with
        request_accessibility := true
        needs_accessibility := true
        needs_paint := true }
      let s := { s with
        needs_compose := false
        request_compose := false
        translation_changed := false }
      let r := compose_children g s cs moved translation
      (r.1, .node r.2.1 r.2.2)

/-- Model of the recurse_on_children call in compose_widget (lines 58 to
74) together with the recursion driver it uses (crate::passes::
recurse_on_children is defined outside src/ ; per spec 4.2 it visits each
child exactly once, in order, and lets the caller merge the child state
into the parent after each visit).  Threads the global state left to
right, recurses into each child with the moved flag and the accumulated
translation, and merges each child post-visit state into the parent state. -/
def compose_children (g : RenderRootState) (parent_state : WidgetState)
    (cs : TreeList) (moved : Bool) (translation : Vec2) :
    RenderRootState × WidgetState × TreeList :=
  match cs with
  | .nil => (g, parent_state, .nil)
  | .cons c rest =>
    let r := compose_widget g c moved translation
    let ps := parent_state.merge_up r.2.state
    let rr := compose_children r.1 ps rest moved translation
    (rr.1, rr.2.1, .cons r.2 rr.2.2)
end

/-- Model of run_compose_pass (src/masonry/src/passes/compose.rs lines 78
to 95): if the root widget needs_compose flag is set, mark
needs_pointer_pass, then invoke compose_widget at the root with
parent_moved false and zero accumulated translation. -/
def run_compose_pass (g : RenderRootState) (root : Tree) :
    RenderRootState × Tree :=
  let g :=
    if root.state.needs_compose then { g with needs_pointer_pass := true }
    else g
  compose_widget g root false Vec2.ZERO

/-! Derived notions used to state the verified properties: the skip and
moved conditions of the pass, paths into the tree, the accumulated
translation along a path, and which paths the pass reaches and visits. -/

/-- The early-exit condition of compose_widget (line 29 of the source),
as a function of the WidgetState at entry and the incoming parent_moved. -/
def skipAt (s : WidgetState) (parent_moved : Bool) : Bool :=
  !parent_moved && !s.translation_changed && !s.needs_compose

/-- The moved value computed by compose_widget (line 25 of the source). -/
def movedAt (s : WidgetState) (parent_moved : Bool) : Bool :=
  parent_moved || s.translation_changed

/-- Follow a path of child indices from the root of a subtree. -/
def Tree.getPath : List Nat → Tree → Option Tree
  | [], t => some t
  | i :: p, t =>
    match t.children.get? i with
    | some c => Tree.getPath p c
    | none => none

/-- The vector sum of translation + origin over a node and all the nodes
on the path from the root of the subtree down to it. -/
def pathVec : List Nat → Tree → Vec2
  | [], t => t.state.translation + t.state.origin
  | i :: p, t =>
    t.state.translation + t.state.origin +
      (match t.children.get? i with
       | some c => pathVec p c
       | none => Vec2.ZERO)

/-- Whether the pass, entered at the root of the subtree with the given
parent_moved flag, invokes compose_widget on the node at the given path:
the root is always reached, and a child is reached when its parent is
reached and does not take the early exit. -/
def reaches : List Nat → Tree → Bool → Bool
  | [], _, _ => true
  | i :: p, t, pm =>
    !skipAt t.state pm &&
      (match t.children.get? i with
       | some c => reaches p c (movedAt t.state pm)
       | none => false)

/-- Whether the pass, entered at the root of the subtree with the given
parent_moved flag, visits (reaches and does not skip) the node at the
given path. -/
def isVisited : List Nat → Tree → Bool → Bool
  | [], t, pm => !skipAt t.state pm
  | i :: p, t, pm =>
    !skipAt t.state pm &&
      (match t.children.get? i with
       | some c => isVisited p c (movedAt t.state pm)
       | none => false)

/-! Spec-side descriptions of the observable side effects of one pass,
written from the claim sentences: the list of IME signals the pass should
enqueue (one per visited node that really moved, accepts text input and
holds focus, in traversal order) and the list of widget ids whose compose
callback the pass should invoke (each visited node with request_compose
set, in traversal order). -/

mutual
/-- Spec-side description (C3): the IME signals one pass over this subtree
should enqueue, given the focused widget id, the parent_moved flag and the
accumulated parent translation: nothing for a skipped subtree; for a
visited node, one anchor-moved signal exactly when the node really moved,
accepts text input and holds input focus, followed by the signals of its
children in order. -/
def imeSignalsSpec (foc : Option Nat) : Tree → Bool → Vec2 → List RenderRootSignal
  | .node s cs, pm, pt =>
    if skipAt s pm then []
    else
      (if movedAt s pm && s.accepts_text_input && (foc == some s.id) then
        [RenderRootSignal.ImeMoved (pt + s.translation + s.origin)]
      else []) ++ imeSignalsSpecList foc cs (movedAt s pm) (pt + s.translation + s.origin)

/-- Spec-side description (C3), child-list part. -/
def imeSignalsSpecList (foc : Option Nat) : TreeList → Bool → Vec2 → List RenderRootSignal
  | .nil, _, _ => []
  | .cons c rest, m, tr =>
    imeSignalsSpec foc c m tr ++ imeSignalsSpecList foc rest m tr
end

mutual
/-- Spec-side description (C4): the widget ids whose compose callback one
pass over this subtree should invoke: none for a skipped subtree; for a
visited node, its own id exactly when request_compose is set at entry,
followed by the ids of its children in order. -/
def composeCallsSpec : Tree → Bool → List Nat
  | .node s cs, pm =>
    if skipAt s pm then []
    else
      (if s.request_compose then [s.id] else []) ++
        composeCallsSpecList cs (movedAt s pm)

/-- Spec-side description (C4), child-list part. -/
def composeCallsSpecList : TreeList → Bool → List Nat
  | .nil, _ => []
  | .cons c rest, m => composeCallsSpec c m ++ composeCallsSpecList rest m
end

/-- The not-skipped branch of compose_widget, written out flat; used only
to state the unfolding lemma compose_widget_visit. -/
def compose_visit (g : RenderRootState) (s : WidgetState) (cs : TreeList)
    (pm : Bool) (pt : Vec2) : RenderRootState × Tree :=
  let translation := pt + s.translation + s.origin
  let g1 := if s.request_compose then g.record_compose s.id else g
  let g2 :=
    if movedAt s pm && s.accepts_text_input && g1.is_focused s.id then
      g1.emit_signal (RenderRootSignal.new_ime_moved_signal translation)
    else g1
  let s2 := { s with
    window_origin := translation
    needs_accessibility := true
    request_accessibility := true
    needs_paint := true
    needs_compose := false
    request_compose := false
    translation_changed := false }
  let r := compose_children g2 s2 cs (movedAt s pm) translation
  (r.1, .node r.2.1 r.2.2)

/-! Unfolding and projection lemmas. -/

theorem compose_widget_eq (g : RenderRootState) (s : WidgetState)
    (cs : TreeList) (pm : Bool) (pt : Vec2) :
    compose_widget g (.node s cs) pm pt =
      if skipAt s pm then
        (g, .node { s with window_origin := pt + s.translation + s.origin } cs)
      else compose_visit g s cs pm pt := rfl

theorem compose_widget_skip (g : RenderRootState) (s : WidgetState)
    (cs : TreeList) (pm : Bool) (pt : Vec2) (h : skipAt s pm = true) :
    compose_widget g (.node s cs) pm pt =
      (g, .node { s with window_origin := pt + s.translation + s.origin } cs) := by
  rw [compose_widget_eq, if_pos h]

theorem compose_widget_visit (g : RenderRootState) (s : WidgetState)
    (cs : TreeList) (pm : Bool) (pt : Vec2) (h : skipAt s pm = false) :
    compose_widget g (.node s cs) pm pt = compose_visit g s cs pm pt := by
  rw [compose_widget_eq, if_neg (by simp [h])]

theorem compose_children_nil (g : RenderRootState) (ps : WidgetState)
    (m : Bool) (tr : Vec2) :
    compose_children g ps .nil m tr = (g, ps, .nil) := rfl

theorem compose_children_cons (g : RenderRootState) (ps : WidgetState)
    (c : Tree) (rest : TreeList) (m : Bool) (tr : Vec2) :
    compose_children g ps (.cons c rest) m tr =
      ((compose_children (compose_widget g c m tr).1
          (ps.merge_up (compose_widget g c m tr).2.state) rest m tr).1,
       (compose_children (compose_widget g c m tr).1
          (ps.merge_up (compose_widget g c m tr).2.state) rest m tr).2.1,
       .cons (compose_widget g c m tr).2
         (compose_children (compose_widget g c m tr).1
           (ps.merge_up (compose_widget g c m tr).2.state) rest m tr).2.2) := rfl

@[simp] theorem Tree.state_node (s : WidgetState) (cs : TreeList) :
    (Tree.node s cs).state = s := rfl

@[simp] theorem Tree.children_node (s : WidgetState) (cs : TreeList) :
    (Tree.node s cs).children = cs := rfl

@[simp] theorem RenderRootState.focused_record_compose (g : RenderRootState)
    (i : Nat) : (g.record_compose i).focused = g.focused := rfl

@[simp] theorem RenderRootState.focused_emit_signal (g : RenderRootState)
    (sig : RenderRootSignal) : (g.emit_signal sig).focused = g.focused := rfl

@[simp] theorem RenderRootState.npp_record_compose (g : RenderRootState)
    (i : Nat) : (g.record_compose i).needs_pointer_pass = g.needs_pointer_pass := rfl

@[simp] theorem RenderRootState.npp_emit_signal (g : RenderRootState)
    (sig : RenderRootSignal) :
    (g.emit_signal sig).needs_pointer_pass = g.needs_pointer_pass := rfl

@[simp] theorem RenderRootState.signals_record_compose (g : RenderRootState)
    (i : Nat) : (g.record_compose i).signals = g.signals := rfl

@[simp] theorem RenderRootState.signals_emit_signal (g : RenderRootState)
    (sig : RenderRootSignal) :
    (g.emit_signal sig).signals = g.signals ++ [sig] := rfl

@[simp] theorem RenderRootState.calls_record_compose (g : RenderRootState)
    (i : Nat) : (g.record_compose i).composeCalls = g.composeCalls ++ [i] := rfl

@[simp] theorem RenderRootState.calls_emit_signal (g : RenderRootState)
    (sig : RenderRootSignal) :
    (g.emit_signal sig).composeCalls = g.composeCalls := rfl

@[simp] theorem WidgetState.merge_up_id (p c : WidgetState) :
    (p.merge_up c).id = p.id := rfl

@[simp] theorem WidgetState.merge_up_origin (p c : WidgetState) :
    (p.merge_up c).origin = p.origin := rfl

@[simp] theorem WidgetState.merge_up_translation (p c : WidgetState) :
    (p.merge_up c).translation = p.translation := rfl

@[simp] theorem WidgetState.merge_up_window_origin (p c : WidgetState) :
    (p.merge_up c).window_origin = p.window_origin := rfl

@[simp] theorem WidgetState.merge_up_translation_changed (p c : WidgetState) :
    (p.merge_up c).translation_changed = p.translation_changed := rfl

@[simp] theorem WidgetState.merge_up_request_compose (p c : WidgetState) :
    (p.merge_up c).request_compose = p.request_compose := rfl

@[simp] theorem WidgetState.merge_up_request_accessibility (p c : WidgetState) :
    (p.merge_up c).request_accessibility = p.request_accessibility := rfl

@[simp] theorem WidgetState.merge_up_accepts_text_input (p c : WidgetState) :
    (p.merge_up c).accepts_text_input = p.accepts_text_input := rfl

@[simp] theorem WidgetState.merge_up_needs_compose (p c : WidgetState) :
    (p.merge_up c).needs_compose = (p.needs_compose || c.needs_compose) := rfl

@[simp] theorem WidgetState.merge_up_needs_accessibility (p c : WidgetState) :
    (p.merge_up c).needs_accessibility =
      (p.needs_accessibility || c.needs_accessibility) := rfl

@[simp] theorem WidgetState.merge_up_needs_paint (p c : WidgetState) :
    (p.merge_up c).needs_paint = (p.needs_paint || c.needs_paint) := rfl

/-! The tree and parent-state results of the pass do not depend on the
incoming global state: the global state only influences signal emission
and callback recording, which live in the global state itself. -/

mutual
theorem compose_widget_tree_congr (t : Tree) :
    ∀ g g' pm pt,
      (compose_widget g t pm pt).2 = (compose_widget g' t pm pt).2 :=
  match t with
  | .node s cs => by
    intro g g' pm pt
    by_cases h : skipAt s pm = true
    · rw [compose_widget_skip g s cs pm pt h, compose_widget_skip g' s cs pm pt h]
    · rw [compose_widget_visit g s cs pm pt (by revert h; cases skipAt s pm <;> simp),
        compose_widget_visit g' s cs pm pt (by revert h; cases skipAt s pm <;> simp)]
      simp only [compose_visit]
      rw [(compose_children_pair_congr cs _ _ _ _ _).1,
        (compose_children_pair_congr cs _ _ _ _ _).2]

theorem compose_children_pair_congr (cs : TreeList) :
    ∀ g g' ps m tr,
      (compose_children g ps cs m tr).2.1 = (compose_children g' ps cs m tr).2.1 ∧
      (compose_children g ps cs m tr).2.2 = (compose_children g' ps cs m tr).2.2 :=
  match cs with
  | .nil => by intro g g' ps m tr; exact ⟨rfl, rfl⟩
  | .cons c rest => by
    intro g g' ps m tr
    rw [compose_children_cons, compose_children_cons]
    have hc := compose_widget_tree_congr c g g' m tr
    have ih := compose_children_pair_congr rest (compose_widget g c m tr).1
      (compose_widget g' c m tr).1 (ps.merge_up (compose_widget g' c m tr).2.state) m tr
    rw [hc]
    exact ⟨ih.1, by rw [ih.2]⟩
end

/-- The child list produced by compose_children is, index by index, the
result of running compose_widget on the corresponding input child. -/
theorem compose_children_get (cs : TreeList) :
    ∀ g ps m tr i,
      (compose_children g ps cs m tr).2.2.get? i =
        (cs.get? i).map (fun c => (compose_widget g c m tr).2) :=
  match cs with
  | .nil => by intro g ps m tr i; cases i <;> rfl
  | .cons c rest => by
    intro g ps m tr i
    have ih := compose_children_get rest
    cases i with
    | zero => rfl
    | succ n =>
      rw [compose_children_cons]
      show (compose_children (compose_widget g c m tr).1 _ rest m tr).2.2.get? n = _
      rw [ih]
      show _ = (rest.get? n).map _
      cases h : rest.get? n with
      | none => rfl
      | some c2 =>
        show some ((compose_widget (compose_widget g c m tr).1 c2 m tr).2)
          = some ((compose_widget g c2 m tr).2)
        rw [compose_widget_tree_congr c2 (compose_widget g c m tr).1 g m tr]

/-- compose_children preserves the length of the child list. -/
theorem compose_children_length (cs : TreeList) :
    ∀ g ps m tr,
      (compose_children g ps cs m tr).2.2.length = cs.length :=
  match cs with
  | .nil => by intro g ps m tr; rfl
  | .cons c rest => by
    intro g ps m tr
    rw [compose_children_cons]
    show ((compose_children _ _ rest m tr).2.2.length + 1 = rest.length + 1)
    rw [compose_children_length rest]

/-- compose_children only changes the parent state through merge_up, so
every field merge_up leaves alone is preserved, and the needs bits that
merge_up only ORs stay true once true. -/
theorem compose_children_ps_fields (cs : TreeList) :
    ∀ g ps m tr,
      ((compose_children g ps cs m tr).2.1.id = ps.id ∧
       (compose_children g ps cs m tr).2.1.origin = ps.origin ∧
       (compose_children g ps cs m tr).2.1.translation = ps.translation ∧
       (compose_children g ps cs m tr).2.1.accepts_text_input
         = ps.accepts_text_input ∧
       (compose_children g ps cs m tr).2.1.window_origin = ps.window_origin ∧
       (compose_children g ps cs m tr).2.1.request_compose
         = ps.request_compose ∧
       (compose_children g ps cs m tr).2.1.translation_changed
         = ps.translation_changed ∧
       (compose_children g ps cs m tr).2.1.request_accessibility
         = ps.request_accessibility) ∧
      ((ps.needs_accessibility = true →
        (compose_children g ps cs m tr).2.1.needs_accessibility = true) ∧
       (ps.needs_paint = true →
        (compose_children g ps cs m tr).2.1.needs_paint = true)) :=
  match cs with
  | .nil => by
    intro g ps m tr
    exact ⟨⟨rfl, rfl, rfl, rfl, rfl, rfl, rfl, rfl⟩, fun h => h, fun h => h⟩
  | .cons c rest => by
    intro g ps m tr
    rw [compose_children_cons]
    have ih := compose_children_ps_fields rest (compose_widget g c m tr).1
      (ps.merge_up (compose_widget g c m tr).2.state) m tr
    refine ⟨⟨?_, ?_, ?_, ?_, ?_, ?_, ?_, ?_⟩, ?_, ?_⟩
    · simp [ih.1.1]
    · simp [ih.1.2.1]
    · simp [ih.1.2.2.1]
    · simp [ih.1.2.2.2.1]
    · simp [ih.1.2.2.2.2.1]
    · simp [ih.1.2.2.2.2.2.1]
    · simp [ih.1.2.2.2.2.2.2.1]
    · simp [ih.1.2.2.2.2.2.2.2]
    · intro h
      exact ih.2.1 (by simp [h])
    · intro h
      exact ih.2.2 (by simp [h])

/-- Projection corollaries of compose_children_ps_fields, stated one
equation at a time so they can be used as rewrite rules. -/
theorem compose_children_ps_id (cs : TreeList) (g : RenderRootState)
    (ps : WidgetState) (m : Bool) (tr : Vec2) :
    (compose_children g ps cs m tr).2.1.id = ps.id :=
  (compose_children_ps_fields cs g ps m tr).1.1

theorem compose_children_ps_origin (cs : TreeList) (g : RenderRootState)
    (ps : WidgetState) (m : Bool) (tr : Vec2) :
    (compose_children g ps cs m tr).2.1.origin = ps.origin :=
  (compose_children_ps_fields cs g ps m tr).1.2.1

theorem compose_children_ps_translation (cs : TreeList) (g : RenderRootState)
    (ps : WidgetState) (m : Bool) (tr : Vec2) :
    (compose_children g ps cs m tr).2.1.translation = ps.translation :=
  (compose_children_ps_fields cs g ps m tr).1.2.2.1

theorem compose_children_ps_ati (cs : TreeList) (g : RenderRootState)
    (ps : WidgetState) (m : Bool) (tr : Vec2) :
    (compose_children g ps cs m tr).2.1.accepts_text_input
      = ps.accepts_text_input :=
  (compose_children_ps_fields cs g ps m tr).1.2.2.2.1

theorem compose_children_ps_window_origin (cs : TreeList)
    (g : RenderRootState) (ps : WidgetState) (m : Bool) (tr : Vec2) :
    (compose_children g ps cs m tr).2.1.window_origin = ps.window_origin :=
  (compose_children_ps_fields cs g ps m tr).1.2.2.2.2.1

theorem compose_children_ps_request_compose (cs : TreeList)
    (g : RenderRootState) (ps : WidgetState) (m : Bool) (tr : Vec2) :
    (compose_children g ps cs m tr).2.1.request_compose
      = ps.request_compose :=
  (compose_children_ps_fields cs g ps m tr).1.2.2.2.2.2.1

theorem compose_children_ps_translation_changed (cs : TreeList)
    (g : RenderRootState) (ps : WidgetState) (m : Bool) (tr : Vec2) :
    (compose_children g ps cs m tr).2.1.translation_changed
      = ps.translation_changed :=
  (compose_children_ps_fields cs g ps m tr).1.2.2.2.2.2.2.1

theorem compose_children_ps_request_accessibility (cs : TreeList)
    (g : RenderRootState) (ps : WidgetState) (m : Bool) (tr : Vec2) :
    (compose_children g ps cs m tr).2.1.request_accessibility
      = ps.request_accessibility :=
  (compose_children_ps_fields cs g ps m tr).1.2.2.2.2.2.2.2

theorem compose_children_ps_na (cs : TreeList) (g : RenderRootState)
    (ps : WidgetState) (m : Bool) (tr : Vec2)
    (h : ps.needs_accessibility = true) :
    (compose_children g ps cs m tr).2.1.needs_accessibility = true :=
  (compose_children_ps_fields cs g ps m tr).2.1 h

theorem compose_children_ps_np (cs : TreeList) (g : RenderRootState)
    (ps : WidgetState) (m : Bool) (tr : Vec2) (h : ps.needs_paint = true) :
    (compose_children g ps cs m tr).2.1.needs_paint = true :=
  (compose_children_ps_fields cs g ps m tr).2.2 h

/-! The needs_compose and translation_changed flags of the root of any
compose_widget result are always false: a skipped node had them false
already (the skip condition requires translation_changed and
needs_compose false), a visited node has them cleared, and merge-up only
ORs in the needs_compose bits of the processed children, themselves
false by recursion. -/

mutual
theorem compose_widget_nc (t : Tree) :
    ∀ g pm pt, (compose_widget g t pm pt).2.state.needs_compose = false :=
  match t with
  | .node s cs => by
    intro g pm pt
    by_cases h : skipAt s pm = true
    · rw [compose_widget_skip g s cs pm pt h]
      revert h
      simp only [skipAt, Tree.state_node]
      cases pm <;> cases s.translation_changed <;> cases s.needs_compose <;> simp
    · rw [compose_widget_visit g s cs pm pt (by revert h; cases skipAt s pm <;> simp)]
      simp only [compose_visit, Tree.state_node]
      exact compose_children_nc cs _ _ _ _ rfl

theorem compose_children_nc (cs : TreeList) :
    ∀ g ps m tr, ps.needs_compose = false →
      (compose_children g ps cs m tr).2.1.needs_compose = false :=
  match cs with
  | .nil => by intro g ps m tr h; exact h
  | .cons c rest => by
    intro g ps m tr h
    rw [compose_children_cons]
    exact compose_children_nc rest _ _ m tr
      (by simp [h, compose_widget_nc c g m tr])
end

/-- Identity, local geometry, the computed window_origin, and the cleared
translation_changed flag at the root of any compose_widget result. -/
theorem compose_widget_root_state (t : Tree) (g : RenderRootState)
    (pm : Bool) (pt : Vec2) :
    (compose_widget g t pm pt).2.state.id = t.state.id ∧
    (compose_widget g t pm pt).2.state.origin = t.state.origin ∧
    (compose_widget g t pm pt).2.state.translation = t.state.translation ∧
    (compose_widget g t pm pt).2.state.accepts_text_input
      = t.state.accepts_text_input ∧
    (compose_widget g t pm pt).2.state.window_origin
      = pt + t.state.translation + t.state.origin ∧
    (compose_widget g t pm pt).2.state.translation_changed = false := by
  cases t with
  | node s cs =>
    by_cases h : skipAt s pm = true
    · rw [compose_widget_skip g s cs pm pt h]
      refine ⟨rfl, rfl, rfl, rfl, rfl, ?_⟩
      revert h
      simp only [skipAt, Tree.state_node]
      cases pm <;> cases s.translation_changed <;> cases s.needs_compose <;> simp
    · rw [compose_widget_visit g s cs pm pt (by revert h; cases skipAt s pm <;> simp)]
      simp only [compose_visit, Tree.state_node]
      refine ⟨?_, ?_, ?_, ?_, ?_, ?_⟩
      · rw [compose_children_ps_id]
      · rw [compose_children_ps_origin]
      · rw [compose_children_ps_translation]
      · rw [compose_children_ps_ati]
      · rw [compose_children_ps_window_origin]
      · rw [compose_children_ps_translation_changed]

/-- At a visited (not skipped) node, request_compose is cleared and the
downstream dirty bits needs_accessibility, request_accessibility,
needs_paint are set, and all of that survives the merge-up of the
children. -/
theorem compose_widget_visited_state (g : RenderRootState) (s : WidgetState)
    (cs : TreeList) (pm : Bool) (pt : Vec2) (h : skipAt s pm = false) :
    (compose_widget g (.node s cs) pm pt).2.state.request_compose = false ∧
    (compose_widget g (.node s cs) pm pt).2.state.needs_accessibility = true ∧
    (compose_widget g (.node s cs) pm pt).2.state.request_accessibility = true ∧
    (compose_widget g (.node s cs) pm pt).2.state.needs_paint = true := by
  rw [compose_widget_visit g s cs pm pt h]
  simp only [compose_visit, Tree.state_node]
  refine ⟨?_, ?_, ?_, ?_⟩
  · rw [compose_children_ps_request_compose]
  · exact compose_children_ps_na cs _ _ _ _ rfl
  · rw [compose_children_ps_request_accessibility]
  · exact compose_children_ps_np cs _ _ _ _ rfl

/-! The pass only appends to the signal queue and the callback record: the
focus oracle and the needs_pointer_pass flag are untouched by
compose_widget. -/

mutual
theorem compose_widget_g_pres (t : Tree) :
    ∀ g pm pt,
      (compose_widget g t pm pt).1.focused = g.focused ∧
      (compose_widget g t pm pt).1.needs_pointer_pass = g.needs_pointer_pass :=
  match t with
  | .node s cs => by
    intro g pm pt
    by_cases h : skipAt s pm = true
    · rw [compose_widget_skip g s cs pm pt h]
      exact ⟨rfl, rfl⟩
    · rw [compose_widget_visit g s cs pm pt (by revert h; cases skipAt s pm <;> simp)]
      simp only [compose_visit]
      have hcs := compose_children_g_pres cs
      constructor
      · exact ((hcs _ _ _ _).1).trans (by split <;> split <;> rfl)
      · exact ((hcs _ _ _ _).2).trans (by split <;> split <;> rfl)

theorem compose_children_g_pres (cs : TreeList) :
    ∀ g ps m tr,
      (compose_children g ps cs m tr).1.focused = g.focused ∧
      (compose_children g ps cs m tr).1.needs_pointer_pass
        = g.needs_pointer_pass :=
  match cs with
  | .nil => by intro g ps m tr; exact ⟨rfl, rfl⟩
  | .cons c rest => by
    intro g ps m tr
    rw [compose_children_cons]
    have ihc := compose_widget_g_pres c g m tr
    have ih := compose_children_g_pres rest (compose_widget g c m tr).1
      (ps.merge_up (compose_widget g c m tr).2.state) m tr
    exact ⟨ih.1.trans ihc.1, ih.2.trans ihc.2⟩
end

theorem compose_widget_focused (t : Tree) (g : RenderRootState) (pm : Bool)
    (pt : Vec2) : (compose_widget g t pm pt).1.focused = g.focused :=
  (compose_widget_g_pres t g pm pt).1

theorem compose_widget_npp (t : Tree) (g : RenderRootState) (pm : Bool)
    (pt : Vec2) :
    (compose_widget g t pm pt).1.needs_pointer_pass = g.needs_pointer_pass :=
  (compose_widget_g_pres t g pm pt).2

/-! The signals a pass appends are exactly the spec-side list
imeSignalsSpec, and the callbacks it records are exactly
composeCallsSpec. -/

mutual
theorem compose_widget_signals (t : Tree) :
    ∀ g pm pt,
      (compose_widget g t pm pt).1.signals
        = g.signals ++ imeSignalsSpec g.focused t pm pt :=
  match t with
  | .node s cs => by
    intro g pm pt
    by_cases h : skipAt s pm = true
    · rw [compose_widget_skip g s cs pm pt h]
      simp [imeSignalsSpec, h]
    · have h' : skipAt s pm = false := by revert h; cases skipAt s pm <;> simp
      rw [compose_widget_visit g s cs pm pt h']
      simp only [compose_visit]
      have hcs := compose_children_signals cs
      rw [hcs]
      simp only [imeSignalsSpec, h', if_false, Bool.false_eq_true]
      cases hrc : s.request_compose with
      | false =>
        simp only [Bool.false_eq_true, if_false]
        cases hcond : movedAt s pm && s.accepts_text_input && (g.focused == some s.id) with
        | false =>
          simp [RenderRootState.is_focused, hcond]
        | true =>
          simp [RenderRootState.is_focused, hcond, RenderRootSignal.new_ime_moved_signal]
      | true =>
        simp only [if_true]
        cases hcond : movedAt s pm && s.accepts_text_input && (g.focused == some s.id) with
        | false =>
          simp [RenderRootState.is_focused, hcond]
        | true =>
          simp [RenderRootState.is_focused, hcond, RenderRootSignal.new_ime_moved_signal]

theorem compose_children_signals (cs : TreeList) :
    ∀ g ps m tr,
      (compose_children g ps cs m tr).1.signals
        = g.signals ++ imeSignalsSpecList g.focused cs m tr :=
  match cs with
  | .nil => by intro g ps m tr; simp [imeSignalsSpecList, compose_children_nil]
  | .cons c rest => by
    intro g ps m tr
    rw [compose_children_cons]
    have ih := compose_children_signals rest (compose_widget g c m tr).1
      (ps.merge_up (compose_widget g c m tr).2.state) m tr
    rw [ih, compose_widget_focused, compose_widget_signals c g m tr]
    simp [imeSignalsSpecList]
end

mutual
theorem compose_widget_calls (t : Tree) :
    ∀ g pm pt,
      (compose_widget g t pm pt).1.composeCalls
        = g.composeCalls ++ composeCallsSpec t pm :=
  match t with
  | .node s cs => by
    intro g pm pt
    by_cases h : skipAt s pm = true
    · rw [compose_widget_skip g s cs pm pt h]
      simp [composeCallsSpec, h]
    · have h' : skipAt s pm = false := by revert h; cases skipAt s pm <;> simp
      rw [compose_widget_visit g s cs pm pt h']
      simp only [compose_visit]
      have hcs := compose_children_calls cs
      rw [hcs]
      simp only [composeCallsSpec, h', if_false, Bool.false_eq_true]
      cases hrc : s.request_compose with
      | false =>
        simp only [Bool.false_eq_true, if_false]
        split <;> simp
      | true =>
        simp only [if_true]
        split <;> simp

theorem compose_children_calls (cs : TreeList) :
    ∀ g ps m tr,
      (compose_children g ps cs m tr).1.composeCalls
        = g.composeCalls ++ composeCallsSpecList cs m :=
  match cs with
  | .nil => by intro g ps m tr; simp [composeCallsSpecList, compose_children_nil]
  | .cons c rest => by
    intro g ps m tr
    rw [compose_children_cons]
    have ih := compose_children_calls rest (compose_widget g c m tr).1
      (ps.merge_up (compose_widget g c m tr).2.state) m tr
    rw [ih, compose_widget_calls c g m tr]
    simp [composeCallsSpecList]
end

/-! Path lemmas: stepping one level into the result of a visited node, and
the per-path facts behind the claims. -/

/-- Stepping into child i of a visited node: the subtree at i :: p of the
result is the subtree at p of the recursive call on child i (the incoming
global state is irrelevant to the tree result). -/
theorem compose_widget_getPath_cons (g : RenderRootState) (s : WidgetState)
    (cs : TreeList) (pm : Bool) (pt : Vec2) (i : Nat) (p : List Nat) (c : Tree)
    (hskip : skipAt s pm = false) (hc : cs.get? i = some c) :
    Tree.getPath (i :: p) (compose_widget g (.node s cs) pm pt).2
      = Tree.getPath p
          (compose_widget g c (movedAt s pm) (pt + s.translation + s.origin)).2 := by
  rw [compose_widget_visit g s cs pm pt hskip]
  simp only [compose_visit, Tree.getPath, Tree.children_node]
  rw [compose_children_get cs, hc]
  simp only [Option.map_some']
  rw [compose_widget_tree_congr c _ g (movedAt s pm) (pt + s.translation + s.origin)]

/-- Destructing a head of reaches: at a non-empty path the node is not
skipped, the child exists, and the tail is reached from the child. -/
theorem reaches_cons (i : Nat) (p : List Nat) (s : WidgetState)
    (cs : TreeList) (pm : Bool) (h : reaches (i :: p) (.node s cs) pm = true) :
    skipAt s pm = false ∧
      ∃ c, cs.get? i = some c ∧ reaches p c (movedAt s pm) = true := by
  simp only [reaches, Tree.state_node, Tree.children_node] at h
  rw [Bool.and_eq_true] at h
  obtain ⟨hskip, hrest⟩ := h
  refine ⟨by revert hskip; cases skipAt s pm <;> simp, ?_⟩
  cases hc : TreeList.get? cs i with
  | none => rw [hc] at hrest; simp at hrest
  | some c => exact ⟨c, rfl, by rw [hc] at hrest; exact hrest⟩

/-- Destructing a head of isVisited, same shape as reaches_cons. -/
theorem isVisited_cons (i : Nat) (p : List Nat) (s : WidgetState)
    (cs : TreeList) (pm : Bool)
    (h : isVisited (i :: p) (.node s cs) pm = true) :
    skipAt s pm = false ∧
      ∃ c, cs.get? i = some c ∧ isVisited p c (movedAt s pm) = true := by
  simp only [isVisited, Tree.state_node, Tree.children_node] at h
  rw [Bool.and_eq_true] at h
  obtain ⟨hskip, hrest⟩ := h
  refine ⟨by revert hskip; cases skipAt s pm <;> simp, ?_⟩
  cases hc : TreeList.get? cs i with
  | none => rw [hc] at hrest; simp at hrest
  | some c => exact ⟨c, rfl, by rw [hc] at hrest; exact hrest⟩

/-- A visited node is in particular reached. -/
theorem isVisited_reaches :
    ∀ (p : List Nat) (t : Tree) (pm : Bool),
      isVisited p t pm = true → reaches p t pm = true
  | [], _, _ => by intro _; rfl
  | i :: p, .node s cs, pm => by
    intro h
    obtain ⟨hskip, c, hc, hv⟩ := isVisited_cons i p s cs pm h
    simp only [reaches, Tree.state_node, Tree.children_node, hskip, hc]
    simp [isVisited_reaches p c (movedAt s pm) hv]

/-- Along every reached path, the pass writes window_origin to the
accumulated translation plus the vector sum of translation + origin down
the path. -/
theorem compose_widget_window_origin_path :
    ∀ (p : List Nat) (t : Tree) (g : RenderRootState) (pm : Bool) (pt : Vec2),
      reaches p t pm = true →
      (Tree.getPath p (compose_widget g t pm pt).2).map
          (fun u => u.state.window_origin)
        = some (pt + pathVec p t)
  | [], t, g, pm, pt => by
    intro _
    simp only [Tree.getPath, Option.map_some', pathVec]
    rw [(compose_widget_root_state t g pm pt).2.2.2.2.1, add_assoc]
  | i :: p, .node s cs, g, pm, pt => by
    intro h
    obtain ⟨hskip, c, hc, hr⟩ := reaches_cons i p s cs pm h
    rw [compose_widget_getPath_cons g s cs pm pt i p c hskip hc]
    rw [compose_widget_window_origin_path p c g (movedAt s pm)
      (pt + s.translation + s.origin) hr]
    simp only [pathVec, Tree.state_node, Tree.children_node, hc]
    rw [add_assoc, add_assoc, add_assoc]

/-- At every path (reached or not), the pass preserves the origin and
translation fields and the shape of the tree. -/
theorem compose_widget_geometry_path :
    ∀ (p : List Nat) (t : Tree) (g : RenderRootState) (pm : Bool) (pt : Vec2),
      (Tree.getPath p (compose_widget g t pm pt).2).map
          (fun u => (u.state.origin, u.state.translation, u.children.length))
        = (Tree.getPath p t).map
            (fun u => (u.state.origin, u.state.translation, u.children.length))
  | [], .node s cs, g, pm, pt => by
    simp only [Tree.getPath, Option.map_some']
    have h1 := (compose_widget_root_state (.node s cs) g pm pt).2.1
    have h2 := (compose_widget_root_state (.node s cs) g pm pt).2.2.1
    rw [h1, h2]
    by_cases hsk : skipAt s pm = true
    · rw [compose_widget_skip g s cs pm pt hsk]
      rfl
    · rw [compose_widget_visit g s cs pm pt
        (by revert hsk; cases skipAt s pm <;> simp)]
      simp [compose_visit, compose_children_length]
  | i :: p, .node s cs, g, pm, pt => by
    by_cases hsk : skipAt s pm = true
    · rw [compose_widget_skip g s cs pm pt hsk]
      rfl
    · have hsk' : skipAt s pm = false := by revert hsk; cases skipAt s pm <;> simp
      cases hc : TreeList.get? cs i with
      | none =>
        rw [compose_widget_visit g s cs pm pt hsk']
        simp only [compose_visit, Tree.getPath, Tree.children_node]
        rw [compose_children_get cs, hc]
        simp only [Option.map_none']
      | some c =>
        rw [compose_widget_getPath_cons g s cs pm pt i p c hsk' hc]
        rw [compose_widget_geometry_path p c g (movedAt s pm)
          (pt + s.translation + s.origin)]
        simp only [Tree.getPath, Tree.children_node, hc]

/-- At every visited path, the pass-scoped dirty flags needs_compose,
request_compose and translation_changed of the result are cleared. -/
theorem compose_widget_flags_cleared_path :
    ∀ (p : List Nat) (t : Tree) (g : RenderRootState) (pm : Bool) (pt : Vec2),
      isVisited p t pm = true →
      (Tree.getPath p (compose_widget g t pm pt).2).map
          (fun u => (u.state.needs_compose, u.state.request_compose,
            u.state.translation_changed))
        = some (false, false, false)
  | [], .node s cs, g, pm, pt => by
    intro h
    have hsk : skipAt s pm = false := by
      revert h
      simp only [isVisited, Tree.state_node]
      cases skipAt s pm <;> simp
    simp only [Tree.getPath, Option.map_some']
    rw [compose_widget_nc (.node s cs) g pm pt,
      (compose_widget_visited_state g s cs pm pt hsk).1,
      (compose_widget_root_state (.node s cs) g pm pt).2.2.2.2.2]
  | i :: p, .node s cs, g, pm, pt => by
    intro h
    obtain ⟨hskip, c, hc, hv⟩ := isVisited_cons i p s cs pm h
    rw [compose_widget_getPath_cons g s cs pm pt i p c hskip hc]
    exact compose_widget_flags_cleared_path p c g (movedAt s pm)
      (pt + s.translation + s.origin) hv

/-- At every visited path, the downstream dirty flags needs_accessibility,
request_accessibility and needs_paint of the result are set. -/
theorem compose_widget_downstream_path :
    ∀ (p : List Nat) (t : Tree) (g : RenderRootState) (pm : Bool) (pt : Vec2),
      isVisited p t pm = true →
      (Tree.getPath p (compose_widget g t pm pt).2).map
          (fun u => (u.state.needs_accessibility, u.state.request_accessibility,
            u.state.needs_paint))
        = some (true, true, true)
  | [], .node s cs, g, pm, pt => by
    intro h
    have hsk : skipAt s pm = false := by
      revert h
      simp only [isVisited, Tree.state_node]
      cases skipAt s pm <;> simp
    simp only [Tree.getPath, Option.map_some']
    rw [(compose_widget_visited_state g s cs pm pt hsk).2.1,
      (compose_widget_visited_state g s cs pm pt hsk).2.2.1,
      (compose_widget_visited_state g s cs pm pt hsk).2.2.2]
  | i :: p, .node s cs, g, pm, pt => by
    intro h
    obtain ⟨hskip, c, hc, hv⟩ := isVisited_cons i p s cs pm h
    rw [compose_widget_getPath_cons g s cs pm pt i p c hskip hc]
    exact compose_widget_downstream_path p c g (movedAt s pm)
      (pt + s.translation + s.origin) hv

/-! Last helpers before the claims: the zero vector is the additive zero,
the entry point unfolded, and the second-pass identity. -/

theorem Vec2.ZERO_eq_zero : Vec2.ZERO = (0 : Vec2) := rfl

theorem Vec2.ZERO_add (v : Vec2) : Vec2.ZERO + v = v := by
  rw [Vec2.ZERO_eq_zero, zero_add]

theorem run_compose_pass_eq (g : RenderRootState) (root : Tree) :
    run_compose_pass g root =
      compose_widget
        (if root.state.needs_compose then { g with needs_pointer_pass := true }
         else g)
        root false Vec2.ZERO := rfl

/-- A tree whose root flags are already consumed and whose root
window_origin is already the accumulated value is a fixed point of the
pass: the root takes the early exit and the rewritten window_origin is
the old one. -/
theorem run_compose_pass_fixed (g2 : RenderRootState) (t1 : Tree)
    (hnc : t1.state.needs_compose = false)
    (htc : t1.state.translation_changed = false)
    (hwo : t1.state.window_origin
      = Vec2.ZERO + t1.state.translation + t1.state.origin) :
    run_compose_pass g2 t1 = (g2, t1) := by
  rw [run_compose_pass_eq, hnc]
  simp only [Bool.false_eq_true, if_false]
  cases t1 with
  | node s1 cs1 =>
    simp only [Tree.state_node] at hnc htc hwo
    rw [compose_widget_skip g2 s1 cs1 false Vec2.ZERO
      (by simp [skipAt, hnc, htc])]
    rw [← hwo]

/-! Concrete inputs used by the witnesses: a three-level tree whose root
is dirty but unmoved, whose middle node has a changed translation, and
whose leaf is clean; plus a clean stand-alone leaf state. -/

/-- Witness input: root state — needs_compose set (a descendant asked for
compose), request_compose set, no movement of its own. -/
def sampleRoot : WidgetState :=
  { id := 0, origin := (1, 2), translation := (10, 20), window_origin := (0, 0),
    translation_changed := false, needs_compose := true, request_compose := true,
    accepts_text_input := false, needs_accessibility := false,
    request_accessibility := false, needs_paint := false }

/-- Witness input: middle state — translation just changed, focused text
input. -/
def sampleMid : WidgetState :=
  { id := 1, origin := (3, 4), translation := (100, 200), window_origin := (0, 0),
    translation_changed := true, needs_compose := false, request_compose := false,
    accepts_text_input := true, needs_accessibility := false,
    request_accessibility := false, needs_paint := false }

/-- Witness input: a completely clean leaf state. -/
def sampleLeaf : WidgetState :=
  { id := 2, origin := (5, 6), translation := (0, 0), window_origin := (0, 0),
    translation_changed := false, needs_compose := false, request_compose := false,
    accepts_text_input := true, needs_accessibility := false,
    request_accessibility := false, needs_paint := false }

/-- Witness input: root → middle → leaf. -/
def sampleTree : Tree :=
  .node sampleRoot (.cons (.node sampleMid (.cons (.node sampleLeaf .nil) .nil)) .nil)

/-- Witness input: global state focusing the middle widget. -/
def sampleG : RenderRootState :=
  { focused := some 1, signals := [], needs_pointer_pass := false,
    composeCalls := [] }

/-! The claims. -/

/-- Claim C1 (position correctness): for every tree and every node visited
(not skipped) by a compose pass, after the pass the window_origin of the
node equals the vector sum of origin + translation over the node itself
and every one of its ancestors up to the root, each child receiving the
absolute translation of its parent as parent_translation.  origin and
translation are pass-invariant (claim C10), so the sum is taken over the
input tree. -/
theorem position_correct (g : RenderRootState) (t : Tree) (p : List Nat)
    (h : isVisited p t false = true) :
    (Tree.getPath p (run_compose_pass g t).2).map
        (fun u => u.state.window_origin)
      = some (pathVec p t) := by
  rw [run_compose_pass_eq]
  rw [compose_widget_window_origin_path p t _ false Vec2.ZERO
    (isVisited_reaches p t false h)]
  rw [Vec2.ZERO_add]

/-- Claim C1 witness: the grandchild of the sample tree is visited and its
window_origin is the accumulated sum. -/
theorem position_correct_witness :
    isVisited [0, 0] sampleTree false = true ∧
      (Tree.getPath [0, 0] (run_compose_pass sampleG sampleTree).2).map
          (fun u => u.state.window_origin)
        = some (pathVec [0, 0] sampleTree) :=
  ⟨rfl, position_correct sampleG sampleTree [0, 0] rfl⟩

/-- Claim C2 (skip correctness): a node entered with parent_moved false
whose translation_changed and needs_compose flags are false stops the
pass: the global state (hence signal queue and callback record) is
returned unchanged, the children (hence every descendant WidgetState) are
returned unchanged, and the node state is unchanged except that
window_origin is rewritten to the accumulated translation — so if the
stored window_origin already satisfied the position invariant, the whole
invocation is the identity on the tree. -/
theorem skip_correct (g : RenderRootState) (s : WidgetState) (cs : TreeList)
    (pt : Vec2) (h1 : s.translation_changed = false)
    (h2 : s.needs_compose = false) :
    compose_widget g (.node s cs) false pt
        = (g, .node { s with window_origin := pt + s.translation + s.origin } cs) ∧
      (s.window_origin = pt + s.translation + s.origin →
        compose_widget g (.node s cs) false pt = (g, .node s cs)) := by
  have hsk : skipAt s false = true := by simp [skipAt, h1, h2]
  refine ⟨compose_widget_skip g s cs false pt hsk, ?_⟩
  intro hwo
  rw [compose_widget_skip g s cs false pt hsk, ← hwo]

/-- Claim C2 witness: the clean leaf of the sample tree, entered unmoved,
is skipped whole. -/
theorem skip_correct_witness :
    sampleLeaf.translation_changed = false ∧
      sampleLeaf.needs_compose = false ∧
      compose_widget sampleG (.node sampleLeaf .nil) false (7, 8)
        = (sampleG, .node
            { sampleLeaf with
              window_origin := (7, 8) + sampleLeaf.translation + sampleLeaf.origin }
            .nil) :=
  ⟨rfl, rfl, (skip_correct sampleG sampleLeaf .nil (7, 8) rfl rfl).1⟩

/-- Claim C3 (IME signal emission): the signals a pass appends to the
queue are exactly imeSignalsSpec: one anchor-moved signal for each visited
node whose moved flag (parent_moved OR translation_changed at entry) is
true AND which accepts text input AND which holds input focus, in
traversal order — so at most one signal per node per pass, none for a
node visited only because needs_compose was set (moved false), and none
for skipped nodes. -/
theorem ime_signal_emission (g : RenderRootState) (t : Tree) :
    (run_compose_pass g t).1.signals
      = g.signals ++ imeSignalsSpec g.focused t false Vec2.ZERO := by
  rw [run_compose_pass_eq, compose_widget_signals t _ false Vec2.ZERO]
  split <;> rfl

/-- Claim C4 (callback invocation condition): the compose callbacks a pass
invokes are exactly composeCallsSpec: each node that is not skipped and
whose request_compose flag is set at entry, in traversal order — in
particular a child only repositioned by an ancestor (parent_moved true,
request_compose false) never has its callback invoked. -/
theorem callback_condition (g : RenderRootState) (t : Tree) :
    (run_compose_pass g t).1.composeCalls
      = g.composeCalls ++ composeCallsSpec t false := by
  rw [run_compose_pass_eq, compose_widget_calls t _ false Vec2.ZERO]
  split <;> rfl

/-- Claim C5 (flag reset): after the pass, every visited node has
needs_compose, request_compose and translation_changed cleared. -/
theorem flag_reset (g : RenderRootState) (t : Tree) (p : List Nat)
    (h : isVisited p t false = true) :
    (Tree.getPath p (run_compose_pass g t).2).map
        (fun u => (u.state.needs_compose, u.state.request_compose,
          u.state.translation_changed))
      = some (false, false, false) := by
  rw [run_compose_pass_eq]
  exact compose_widget_flags_cleared_path p t _ false Vec2.ZERO h

/-- Claim C5 witness: the visited middle node of the sample tree has its
three pass-scoped flags cleared. -/
theorem flag_reset_witness :
    isVisited [0] sampleTree false = true ∧
      (Tree.getPath [0] (run_compose_pass sampleG sampleTree).2).map
          (fun u => (u.state.needs_compose, u.state.request_compose,
            u.state.translation_changed))
        = some (false, false, false) :=
  ⟨rfl, flag_reset sampleG sampleTree [0] rfl⟩

/-- Claim C6 (downstream-dirty marking): after the pass, every visited
node — even one visited only because needs_compose was set, with no real
movement — has needs_accessibility, request_accessibility and needs_paint
set. -/
theorem downstream_dirty (g : RenderRootState) (t : Tree) (p : List Nat)
    (h : isVisited p t false = true) :
    (Tree.getPath p (run_compose_pass g t).2).map
        (fun u => (u.state.needs_accessibility, u.state.request_accessibility,
          u.state.needs_paint))
      = some (true, true, true) := by
  rw [run_compose_pass_eq]
  exact compose_widget_downstream_path p t _ false Vec2.ZERO h

/-- Claim C6 witness: the root of the sample tree is visited only because
needs_compose is set (it does not move), yet its downstream dirty flags
are set. -/
theorem downstream_dirty_witness :
    isVisited [] sampleTree false = true ∧
      (Tree.getPath [] (run_compose_pass sampleG sampleTree).2).map
          (fun u => (u.state.needs_accessibility, u.state.request_accessibility,
            u.state.needs_paint))
        = some (true, true, true) :=
  ⟨rfl, downstream_dirty sampleG sampleTree [] rfl⟩

/-- Claim C7 (idempotence): with no state change between the two runs (and
compose callbacks that do not change state, which is how the out-of-scope
callbacks are modelled), a second compose pass is the identity: the tree
(hence every window_origin) is returned unchanged and the global state —
in particular the signal queue — is returned unchanged, whatever global
state the second run starts from. -/
theorem compose_idempotent (g g2 : RenderRootState) (t : Tree) :
    run_compose_pass g2 (run_compose_pass g t).2
      = (g2, (run_compose_pass g t).2) := by
  apply run_compose_pass_fixed
  · rw [run_compose_pass_eq]
    exact compose_widget_nc t _ false Vec2.ZERO
  · rw [run_compose_pass_eq]
    exact (compose_widget_root_state t _ false Vec2.ZERO).2.2.2.2.2
  · rw [run_compose_pass_eq]
    rw [(compose_widget_root_state t _ false Vec2.ZERO).2.2.2.2.1,
      (compose_widget_root_state t _ false Vec2.ZERO).2.1,
      (compose_widget_root_state t _ false Vec2.ZERO).2.2.1]

/-- Claim C8 (entry-point contract): run_compose_pass leaves
needs_pointer_pass set exactly when it was already set or the root
needs_compose flag was set before the pass (the pass itself never touches
the flag, so the check observes the pre-pass root state), and the
resulting tree is that of exactly one compose_widget invocation at the
root with parent_moved false and zero accumulated translation. -/
theorem entry_point_contract (g : RenderRootState) (t : Tree) :
    (run_compose_pass g t).1.needs_pointer_pass
        = (g.needs_pointer_pass || t.state.needs_compose) ∧
      (run_compose_pass g t).2 = (compose_widget g t false Vec2.ZERO).2 := by
  constructor
  · rw [run_compose_pass_eq, compose_widget_npp]
    cases hnc : t.state.needs_compose <;> simp [hnc]
  · rw [run_compose_pass_eq]
    exact compose_widget_tree_congr t _ g false Vec2.ZERO

/-- Claim C9 (implicit — window_origin is written even on skip): every
invocation of compose_widget assigns window_origin the value
parent_translation + translation + origin, including an invocation that
takes the early exit; a skipped invocation leaves everything else — in
particular all descendants — untouched. -/
theorem window_origin_on_skip (g : RenderRootState) (s : WidgetState)
    (cs : TreeList) (pm : Bool) (pt : Vec2) :
    (compose_widget g (.node s cs) pm pt).2.state.window_origin
        = pt + s.translation + s.origin ∧
      (skipAt s pm = true →
        (compose_widget g (.node s cs) pm pt).2.children = cs) := by
  constructor
  · exact (compose_widget_root_state (.node s cs) g pm pt).2.2.2.2.1
  · intro hsk
    rw [compose_widget_skip g s cs pm pt hsk]
    rfl

/-- Claim C9 witness: a skipped leaf still gets its window_origin
recomputed from the inputs, and its children come back untouched. -/
theorem window_origin_on_skip_witness :
    skipAt sampleLeaf false = true ∧
      (compose_widget sampleG (.node sampleLeaf .nil) false (7, 8)).2.children
        = .nil :=
  ⟨rfl, (window_origin_on_skip sampleG sampleLeaf .nil false (7, 8)).2 rfl⟩

/-- Claim C10 (implicit — origin is read-only to the pass): at every path,
the origin stored in the tree after run_compose_pass is the origin stored
before (compose callbacks are modelled as state-preserving, per the
scope of the spec). -/
theorem origin_read_only (g : RenderRootState) (t : Tree) (p : List Nat) :
    (Tree.getPath p (run_compose_pass g t).2).map (fun u => u.state.origin)
      = (Tree.getPath p t).map (fun u => u.state.origin) := by
  rw [run_compose_pass_eq]
  have h := compose_widget_geometry_path p t
    (if t.state.needs_compose then { g with needs_pointer_pass := true } else g)
    false Vec2.ZERO
  have h2 := congrArg
    (Option.map (fun v : Vec2 × Vec2 × Nat => v.1)) h
  simpa [Option.map_map, Function.comp] using h2

end ComposePass
